import Mathlib

/-!
Verification of the movi-player WASM I/O bridge and nearest-keyframe locator.

The definitions below are a shallow embedding of the C sources under
src/wasm/ (movi.c, movi_thumbnail.c, movi_streams.c).  Machine integers
are modelled as `Int` with explicit reduction modulo 2^32 / 2^64 where the
source performs a narrowing cast or where 64-bit wrap-around semantics
matter.  External collaborators (the JavaScript provider, FFmpeg's AVIO
layer) are modelled as parameters or as a minimal abstract state, per the
interfaces the sources rely on.
-/

namespace Movi

/-- Two's-complement reinterpretation of an integer as a signed 32-bit
value: models the C cast `(int)x` applied to a `uint32_t` (and, more
generally, truncation of any integer to `int32_t`). -/
def toInt32 (n : Int) : Int := (n + 2 ^ 31) % 2 ^ 32 - 2 ^ 31

/-- Two's-complement reinterpretation of an integer as a signed 64-bit
value: models wrap-around of `int64_t` arithmetic as compiled for wasm. -/
def toInt64 (n : Int) : Int := (n + 2 ^ 63) % 2 ^ 64 - 2 ^ 63

/-- Models JavaScript `x >>> 0` applied to a signed 32-bit value: the unsigned
32-bit reinterpretation (movi.c lines 15-16, 48-49). -/
def toUInt32 (n : Int) : Int := n % 2 ^ 32

/-- Models `(uint32_t)(position & 0xFFFFFFFF)` — the low half of a split 64-bit
offset (movi.c line 96). -/
def position_low (position : Int) : Int := position % 2 ^ 32

/-- Models `(uint32_t)(position >> 32)` — the high half of a split 64-bit offset
(movi.c line 97); for non-negative `position` the arithmetic shift is a
floor division. -/
def position_high (position : Int) : Int := position / 2 ^ 32 % 2 ^ 32

/-- The offset reconstruction performed on the JavaScript side of
`js_read_async` / `js_seek_async` (movi.c lines 15-17, 48-50): each signed
32-bit half is first converted to unsigned with `>>> 0`, then the exact
BigInt value `low + high * 2^32` is formed (BigInt arithmetic is exact, so
no further reduction applies). -/
def js_decode_offset (offset_low offset_high : Int) : Int :=
  toUInt32 offset_low + toUInt32 offset_high * 2 ^ 32

/-- Whence constant `SEEK_SET`. -/
def SEEK_SET : Int := 0
/-- Whence constant `SEEK_CUR`. -/
def SEEK_CUR : Int := 1
/-- Whence constant `SEEK_END`. -/
def SEEK_END : Int := 2
/-- FFmpeg's size-query whence constant `AVSEEK_SIZE` (0x10000). -/
def AVSEEK_SIZE : Int := 65536
/-- FFmpeg error code `AVERROR_EOF` = `FFERRTAG('E','O','F',' ')`,
i.e. minus the 32-bit tag 0x20464F45. -/
def AVERROR_EOF : Int := -541478725

/-- Modelled from the spec: the state of FFmpeg's AVIO buffering layer as
far as the bridge observes it (spec section 4.3 and section 6; the AVIO
implementation itself is not part of this repository).  `pos` is the
absolute position `avio_tell` reports; `buffered` records whether the
layer still holds read-ahead data. -/
structure AvioState where
  pos : Int
  buffered : Bool
deriving Repr, DecidableEq

/-- Modelled from the spec: `avio_flush` invalidates the layer's
read-ahead buffer. -/
def avio_flush (a : AvioState) : AvioState := { a with buffered := false }

/-- Modelled from the spec: `avio_tell` reports the layer's current
absolute position. -/
def avio_tell (a : AvioState) : Int := a.pos

/-- Modelled from the spec: `avio_seek(pb, target, SEEK_SET)` repositions
the layer at `target`, dropping buffered data. -/
def avio_seek_abs (a : AvioState) (target : Int) : AvioState :=
  { a with pos := target, buffered := false }

/-- The fields of `MoviContext` (movi.h lines 64-87) that the I/O bridge
and seek path read or write: the 64-bit cursor and file size, the AVIO
layer state, and the container format name consulted by `movi_seek_to`. -/
structure MoviCtx where
  position : Int
  file_size : Int
  avio : AvioState
  format_name : String
deriving Repr, DecidableEq

/-- Embeds `movi_set_file_size` (movi.c lines 162-170): reconstructs the 64-bit
file size from two halves received through signed 32-bit channels, casting
each to `uint32_t` first so that no sign extension occurs, then combining
as `(int64_t)low + ((int64_t)high << 32)` in 64-bit arithmetic. -/
def movi_set_file_size (ctx : MoviCtx) (size_low size_high : Int) : MoviCtx :=
  { ctx with file_size := toInt64 (toUInt32 size_low + toUInt32 size_high * 2 ^ 32) }

/-- Embeds `avio_read_callback` (movi.c lines 91-112).  The JavaScript provider's
response to `js_read_async` is passed as `bytes_read` (the offset sent to
the provider is `ctx.position` split by `position_low` / `position_high`).
A positive count advances the cursor by exactly that count (64-bit
arithmetic); zero is surfaced as `AVERROR_EOF` with the cursor unchanged;
a negative value is returned unchanged with the cursor unchanged. -/
def avio_read_callback (ctx : MoviCtx) (bytes_read : Int) : Int × MoviCtx :=
  if 0 < bytes_read then
    (bytes_read, { ctx with position := toInt64 (ctx.position + bytes_read) })
  else if bytes_read = 0 then
    (AVERROR_EOF, ctx)
  else
    (bytes_read, ctx)

/-- Embeds `avio_seek_callback` (movi.c lines 116-143).  `AVSEEK_SIZE` answers
`file_size` without touching any state; otherwise the new position is
computed from the whence in 64-bit arithmetic, validated against
`[0, file_size]`, and stored and returned on success; failure returns `-1`
and leaves the context unchanged. -/
def avio_seek_callback (ctx : MoviCtx) (offset : Int) (whence : Int) : Int × MoviCtx :=
  if whence = AVSEEK_SIZE then
    (ctx.file_size, ctx)
  else
    match (if whence = SEEK_SET then some offset
           else if whence = SEEK_CUR then some (toInt64 (ctx.position + offset))
           else if whence = SEEK_END then some (toInt64 (ctx.file_size + offset))
           else none) with
    | none => (-1, ctx)
    | some new_pos =>
      if new_pos < 0 ∨ ctx.file_size < new_pos then (-1, ctx)
      else (new_pos, { ctx with position := new_pos })

/-- The fields of `MoviThumbnailContext` (movi_thumbnail.c lines 12-34)
that its I/O callbacks and locator read or write. -/
structure ThumbCtx where
  position : Int
  file_size : Int
  avio : AvioState
deriving Repr, DecidableEq

/-- Embeds `thumbnail_avio_read` (movi_thumbnail.c lines 43-56): identical logic
to `avio_read_callback`, on the thumbnail context. -/
def thumbnail_avio_read (ctx : ThumbCtx) (bytes_read : Int) : Int × ThumbCtx :=
  if 0 < bytes_read then
    (bytes_read, { ctx with position := toInt64 (ctx.position + bytes_read) })
  else if bytes_read = 0 then
    (AVERROR_EOF, ctx)
  else
    (bytes_read, ctx)

/-- Embeds `thumbnail_avio_seek` (movi_thumbnail.c lines 58-84): identical logic
to `avio_seek_callback`, on the thumbnail context. -/
def thumbnail_avio_seek (ctx : ThumbCtx) (offset : Int) (whence : Int) : Int × ThumbCtx :=
  if whence = AVSEEK_SIZE then
    (ctx.file_size, ctx)
  else
    match (if whence = SEEK_SET then some offset
           else if whence = SEEK_CUR then some (toInt64 (ctx.position + offset))
           else if whence = SEEK_END then some (toInt64 (ctx.file_size + offset))
           else none) with
    | none => (-1, ctx)
    | some new_pos =>
      if new_pos < 0 ∨ ctx.file_size < new_pos then (-1, ctx)
      else (new_pos, { ctx with position := new_pos })

/-- Embeds `js_read_async` (movi.c lines 10-40), viewed from the engine: when a
read handler is registered the request is delegated to it and its eventual
response is the result; when no handler is registered the pending promise
is resolved with `-1` on the spot, before any suspension can persist. -/
def js_read_async (onReadRequest : Option (Int → Int → Int))
    (offset : Int) (size : Int) : Int :=
  match onReadRequest with
  | some handler => handler offset size
  | none => -1

/-- Embeds `js_seek_async` (movi.c lines 44-76), viewed from the engine: when a
seek handler is registered the request is delegated to it; when no handler
is registered the pending promise is resolved with `-1n` on the spot. -/
def js_seek_async (onSeekRequest : Option (Int → Int → Int))
    (offset : Int) (whence : Int) : Int :=
  match onSeekRequest with
  | some handler => handler offset whence
  | none => -1

/-- FFmpeg's `AV_NOPTS_VALUE`: `INT64_MIN`. -/
def AV_NOPTS_VALUE : Int := -(2 ^ 63)

/-- The fields of an `AVPacket` inspected by the keyframe locator
(movi_thumbnail.c lines 324-332): stream index, the `AV_PKT_FLAG_KEY`
bit of `flags`, payload size, and the two timestamps (with
`AV_NOPTS_VALUE` as the "no timestamp" sentinel, as in FFmpeg). -/
structure ThumbPacket where
  stream_index : Int
  key : Bool
  size : Int
  pts : Int
  dts : Int
deriving Repr, DecidableEq

/-- Models the `current_pts` selection (movi_thumbnail.c line 329): use `pts` if
available, otherwise `dts`. -/
def effective_pts (p : ThumbPacket) : Int :=
  if p.pts ≠ AV_NOPTS_VALUE then p.pts else p.dts

/-- The guards of movi_thumbnail.c lines 324-331 combined: the packet
belongs to the target video stream, carries the key flag, is non-empty,
and has a usable timestamp.  Packets failing any of these only consume an
iteration of the scan loop. -/
def isCandidate (vid : Int) (p : ThumbPacket) : Bool :=
  p.stream_index == vid && p.key && decide (0 < p.size) &&
    effective_pts p != AV_NOPTS_VALUE

/-- Models wasm `llabs` on an `int64` value: the negation of a negative
argument wraps, so `llabs(INT64_MIN)` is `INT64_MIN` itself. -/
def llabs64 (n : Int) : Int := if n < 0 then toInt64 (-n) else n

/-- Models `llabs(current_pts - target_ts)` (movi_thumbnail.c line 332):
both the subtraction and the absolute value are wrapping `int64`
operations, so for differences of magnitude `2^63` or more the computed
distance is not the true distance. -/
def distTo (target : Int) (p : ThumbPacket) : Int :=
  llabs64 (toInt64 (effective_pts p - target))

/-- The scan loop of `movi_thumbnail_read_keyframe` (movi_thumbnail.c
lines 316-375).  `fuel` is the remaining `max_packets` budget; the packet
list is the sequence of successful `av_read_frame` results (its end models
EOF or a read error, which breaks the loop); `best` is the
`found_keyframe` / `best_pkt` / `best_keyframe_dist` accumulator (`none`
while `found_keyframe == 0`).  For a candidate packet the best-so-far is
replaced when its computed (wrapping `int64`) distance is strictly
smaller, or equal with a timestamp before the target; then, if the
candidate's timestamp strictly exceeds the target, the loop stops. -/
def scanLoop (vid target : Int) :
    Nat → List ThumbPacket → Option (ThumbPacket × Int) →
      Option (ThumbPacket × Int)
  | 0, _, best => best
  | _ + 1, [], best => best
  | fuel + 1, p :: rest, best =>
    if isCandidate vid p then
      let cur := effective_pts p
      let dist := llabs64 (toInt64 (cur - target))
      let best2 :=
        match best with
        | none => some (p, dist)
        | some (b, bd) =>
          if dist < bd ∨ (dist = bd ∧ cur < target) then some (p, dist)
          else some (b, bd)
      if target < cur then best2
      else scanLoop vid target fuel rest best2
    else scanLoop vid target fuel rest best

/-- The candidate packets actually examined by a run of `scanLoop`: the
key, non-empty, valid-timestamp packets of the target stream up to and
including the first whose timestamp strictly exceeds the target, limited
by the fuel budget. -/
def consideredUnits (vid target : Int) :
    Nat → List ThumbPacket → List ThumbPacket
  | 0, _ => []
  | _ + 1, [] => []
  | fuel + 1, p :: rest =>
    if isCandidate vid p then
      if target < effective_pts p then [p]
      else p :: consideredUnits vid target fuel rest
    else consideredUnits vid target fuel rest

/-- Constant `max_packets` (movi_thumbnail.c line 312). -/
def max_packets : Nat := 2000

/-- The locator's scan phase: `scanLoop` started with the full
`max_packets` budget and no candidate found. -/
def movi_thumbnail_scan (vid target : Int) (pkts : List ThumbPacket) :
    Option (ThumbPacket × Int) :=
  scanLoop vid target max_packets pkts none

/-- The first argument `movi_thumbnail_read_keyframe` passes to
`js_thumbnail_packet_ready` once the scan has run (movi_thumbnail.c lines
378-401): the best packet's size on success, `-6` when no keyframe was
found. -/
def scan_ready_code (r : Option (ThumbPacket × Int)) : Int :=
  match r with
  | some (b, _) => b.size
  | none => -6

/-- The outcome code of `movi_thumbnail_read_keyframe` from the seek step
onward (movi_thumbnail.c lines 274-401): `-3` when both seek attempts
fail, otherwise the scan outcome. -/
def read_keyframe_code (seek_ok : Bool) (vid target : Int)
    (pkts : List ThumbPacket) : Int :=
  if seek_ok then scan_ready_code (movi_thumbnail_scan vid target pkts)
  else -3

/-- The seek / resynchronization phase of `movi_thumbnail_read_keyframe`
(movi_thumbnail.c lines 268-298): flush the AVIO layer, try
`avformat_seek_file` and fall back to `av_seek_frame` (both external to
this repository, modelled as arbitrary functions on the AVIO state
returning a status), and on success flush again and re-derive `position`
from `avio_tell`.  Returns the seek status and the updated context. -/
def thumb_seek_phase (seekFile seekFrame : AvioState → Int × AvioState)
    (ctx : ThumbCtx) : Int × ThumbCtx :=
  let a1 := avio_flush ctx.avio
  let r1 := seekFile a1
  let r2 := if r1.1 < 0 then seekFrame r1.2 else r1
  if r2.1 < 0 then (r2.1, { ctx with avio := r2.2 })
  else
    let a4 := avio_flush r2.2
    (r2.1, { ctx with avio := a4, position := avio_tell a4 })

/-- Embeds `movi_seek_to` (movi_streams.c lines 147-219), with the external seek
calls (`avformat_seek_file`, `av_seek_frame`) as parameters: flush the
AVIO layer, seek with fallback, and on success flush again and re-derive
`position` from `avio_tell`; for Matroska/WebM additionally re-issue an
absolute `avio_seek` to that same confirmed position.  The floating-point
target conversion and the seek-flag adjustment only feed the external seek
calls and are absorbed into the `seekFile` / `seekFrame` parameters. -/
def movi_seek_to (seekFile seekFrame : AvioState → Int × AvioState)
    (ctx : MoviCtx) : Int × MoviCtx :=
  let a1 := avio_flush ctx.avio
  let r1 := seekFile a1
  let r2 := if r1.1 < 0 then seekFrame r1.2 else r1
  if 0 ≤ r2.1 then
    let a4 := avio_flush r2.2
    if ctx.format_name = "matroska,webm" ∨ ctx.format_name = "webm" ∨
        ctx.format_name = "matroska" then
      let current_pos := avio_tell a4
      let a5 :=
        if 0 < current_pos ∧ current_pos < ctx.file_size then
          avio_seek_abs a4 current_pos
        else a4
      (r2.1, { ctx with position := current_pos, avio := a5 })
    else
      (r2.1, { ctx with position := avio_tell a4, avio := a4 })
  else (r2.1, { ctx with avio := r2.2 })

/-- The ordering in which the scan keeps candidates: `(b, d)` beats `q`
when it is strictly closer to the target in the scan's computed distance
`distTo`, or equally close with a timestamp at or before `q`'s (ties
broken in favor of the earlier timestamp).  On the no-wrap domain
(`|timestamp − target| < 2^63`) the computed distance is the true
distance. -/
def BetterEq (target : Int) (b : ThumbPacket) (d : Int) (q : ThumbPacket) : Prop :=
  d < distTo target q ∨ (d = distTo target q ∧ effective_pts b ≤ effective_pts q)

/-- A synthetic stream for the locator examples: key access units of
stream 0 at timestamps {0, 2, 4, 6, 8} seconds expressed in a 1/10-second
time base, i.e. native timestamps {0, 20, 40, 60, 80}. -/
def exampleUnits : List ThumbPacket :=
  [⟨0, true, 1, 0, 0⟩, ⟨0, true, 2, 20, 20⟩, ⟨0, true, 3, 40, 40⟩,
   ⟨0, true, 4, 60, 60⟩, ⟨0, true, 5, 80, 80⟩]

/-- The unit of `exampleUnits` at 4 seconds (native timestamp 40). -/
def exampleUnit40 : ThumbPacket := ⟨0, true, 3, 40, 40⟩

/-- The unit of `exampleUnits` at 6 seconds (native timestamp 60). -/
def exampleUnit60 : ThumbPacket := ⟨0, true, 4, 60, 60⟩

/-- A concrete demo session used by witnesses: `position = 1000`,
`file_size = 5000`. -/
def demoCtx : MoviCtx := ⟨1000, 5000, ⟨0, true⟩, "mov,mp4,m4a,3gp,3g2,mj2"⟩

/-- The thumbnail-context analogue of `demoCtx`. -/
def demoThumbCtx : ThumbCtx := ⟨1000, 5000, ⟨0, true⟩⟩

/-- Lemma: `toInt64` is the identity on values already in `int64` range. -/
theorem toInt64_eq_self (n : Int) (h1 : -(2 ^ 63) ≤ n) (h2 : n < 2 ^ 63) :
    toInt64 n = n := by
  unfold toInt64
  omega

/-- C1: Offset codec round-trip.  Splitting a non-negative 64-bit offset
into unsigned 32-bit halves, passing each through a signed 32-bit channel,
and reconstructing as `low + high * 2^32` with both halves reconverted to
unsigned yields exactly the original value — on the JavaScript side of the
bridge for every `v < 2^64` (both halves' top bits may be set), and in
`movi_set_file_size` for every non-negative `int64` value `v < 2^63`
(the low half's top bit may be set); no half is sign-extended. -/
theorem C1_offset_codec_roundtrip :
    (∀ v : Int, 0 ≤ v → v < 2 ^ 64 →
      js_decode_offset (toInt32 (position_low v)) (toInt32 (position_high v)) = v)
  ∧ (∀ ctx : MoviCtx, ∀ v : Int, 0 ≤ v → v < 2 ^ 63 →
      (movi_set_file_size ctx (toInt32 (position_low v))
        (toInt32 (position_high v))).file_size = v) := by
  constructor
  · intro v h0 h1
    simp only [js_decode_offset, toUInt32, toInt32, position_low, position_high]
    omega
  · intro ctx v h0 h1
    simp only [movi_set_file_size, toInt64, toUInt32, toInt32, position_low,
      position_high]
    omega

/-- Witness for C1 at concrete offsets: `2^63 + 2^31` (high 32 bits
non-zero and the top bit of both halves set) for the JavaScript decoder,
and `2^62 + 2^31` (low half's top bit set) for `movi_set_file_size`. -/
theorem C1_offset_codec_roundtrip_witness :
    js_decode_offset (toInt32 (position_low 9223372039002259456))
        (toInt32 (position_high 9223372039002259456)) = 9223372039002259456
  ∧ (movi_set_file_size demoCtx (toInt32 (position_low 4611686020574871552))
        (toInt32 (position_high 4611686020574871552))).file_size
      = 4611686020574871552 :=
  ⟨C1_offset_codec_roundtrip.1 9223372039002259456 (by decide) (by decide),
   C1_offset_codec_roundtrip.2 demoCtx 4611686020574871552 (by decide) (by decide)⟩

/-- C5: Size-query purity.  A seek with whence `AVSEEK_SIZE` returns
`file_size` and changes nothing — the returned context equals the input
context for every offset argument, in both `avio_seek_callback` and
`thumbnail_avio_seek`. -/
theorem C5_size_query_pure :
    (∀ (ctx : MoviCtx) (offset : Int),
      avio_seek_callback ctx offset AVSEEK_SIZE = (ctx.file_size, ctx))
  ∧ (∀ (ctx : ThumbCtx) (offset : Int),
      thumbnail_avio_seek ctx offset AVSEEK_SIZE = (ctx.file_size, ctx)) := by
  constructor
  · intro ctx offset
    simp [avio_seek_callback]
  · intro ctx offset
    simp [thumbnail_avio_seek]

/-- C8: No-provider fail-fast.  With no read handler registered,
`js_read_async` resolves with `-1` for every offset and size; with no seek
handler registered, `js_seek_async` resolves with `-1` for every offset
and whence — in both cases the promise is resolved on the spot instead of
being left pending. -/
theorem C8_no_provider_fail_fast :
    (∀ (offset size : Int), js_read_async none offset size = -1)
  ∧ (∀ (offset whence : Int), js_seek_async none offset whence = -1) := by
  exact ⟨fun _ _ => rfl, fun _ _ => rfl⟩

/-- C2: Seek whence semantics in full 64-bit arithmetic.  For every
session state, the new position is computed as `delta` for `SEEK_SET`,
`position + delta` for `SEEK_CUR`, and `file_size + delta` for
`SEEK_END`; whenever the 64-bit sum does not wrap and the result lies in
`[0, file_size]`, that exact value is stored as the new position and
returned. -/
theorem C2_seek_whence_semantics :
    (∀ (ctx : MoviCtx) (delta : Int), 0 ≤ delta → delta ≤ ctx.file_size →
      avio_seek_callback ctx delta SEEK_SET =
        (delta, { ctx with position := delta }))
  ∧ (∀ (ctx : MoviCtx) (delta : Int),
      -(2 ^ 63) ≤ ctx.position + delta → ctx.position + delta < 2 ^ 63 →
      0 ≤ ctx.position + delta → ctx.position + delta ≤ ctx.file_size →
      avio_seek_callback ctx delta SEEK_CUR =
        (ctx.position + delta, { ctx with position := ctx.position + delta }))
  ∧ (∀ (ctx : MoviCtx) (delta : Int),
      -(2 ^ 63) ≤ ctx.file_size + delta → ctx.file_size + delta < 2 ^ 63 →
      0 ≤ ctx.file_size + delta → ctx.file_size + delta ≤ ctx.file_size →
      avio_seek_callback ctx delta SEEK_END =
        (ctx.file_size + delta, { ctx with position := ctx.file_size + delta })) := by
  refine ⟨?_, ?_, ?_⟩
  · intro ctx delta h3 h4
    simp only [avio_seek_callback, SEEK_SET, AVSEEK_SIZE]
    norm_num
    exact fun h => absurd h (by omega)
  · intro ctx delta h1 h2 h3 h4
    simp only [avio_seek_callback, SEEK_CUR, AVSEEK_SIZE, SEEK_SET, SEEK_END,
      toInt64_eq_self (ctx.position + delta) h1 h2]
    norm_num
    exact fun h => absurd h (by omega)
  · intro ctx delta h1 h2 h3 h4
    simp only [avio_seek_callback, SEEK_END, AVSEEK_SIZE, SEEK_SET, SEEK_CUR,
      toInt64_eq_self (ctx.file_size + delta) h1 h2]
    norm_num
    exact fun h => absurd h (by omega)

/-- Witness for C2 at the spec's example: `position = 1000`,
`file_size = 5000`; seek(-200, SEEK_CUR) returns 800 and stores 800;
seek(0, SEEK_END) returns 5000 and stores 5000; seek(800, SEEK_SET)
returns 800 and stores 800. -/
theorem C2_seek_whence_semantics_witness :
    avio_seek_callback demoCtx (-200) SEEK_CUR =
      (800, { demoCtx with position := 800 })
  ∧ avio_seek_callback demoCtx 0 SEEK_END =
      (5000, { demoCtx with position := 5000 })
  ∧ avio_seek_callback demoCtx 800 SEEK_SET =
      (800, { demoCtx with position := 800 }) :=
  ⟨(C2_seek_whence_semantics.2.1 demoCtx (-200) (by decide) (by decide)
      (by decide) (by decide)).trans (by decide),
   (C2_seek_whence_semantics.2.2 demoCtx 0 (by decide) (by decide)
      (by decide) (by decide)).trans (by decide),
   (C2_seek_whence_semantics.1 demoCtx 800 (by decide) (by decide)).trans
      (by decide)⟩

/-- C3: Seek bounds atomicity.  Whenever the computed new position is
strictly negative or strictly greater than `file_size`, the seek returns
the failure value `-1` and the context — in particular the stored
position — is unchanged; in particular seeking absolutely to
`file_size + 1` always fails with the context unchanged.  Holds for both
`avio_seek_callback` and `thumbnail_avio_seek`. -/
theorem C3_seek_bounds_atomicity :
    (∀ (ctx : MoviCtx) (offset whence np : Int),
      (whence = SEEK_SET ∧ np = offset) ∨
        (whence = SEEK_CUR ∧ np = toInt64 (ctx.position + offset)) ∨
        (whence = SEEK_END ∧ np = toInt64 (ctx.file_size + offset)) →
      np < 0 ∨ ctx.file_size < np →
      avio_seek_callback ctx offset whence = (-1, ctx))
  ∧ (∀ ctx : MoviCtx,
      avio_seek_callback ctx (ctx.file_size + 1) SEEK_SET = (-1, ctx))
  ∧ (∀ (ctx : ThumbCtx) (offset whence np : Int),
      (whence = SEEK_SET ∧ np = offset) ∨
        (whence = SEEK_CUR ∧ np = toInt64 (ctx.position + offset)) ∨
        (whence = SEEK_END ∧ np = toInt64 (ctx.file_size + offset)) →
      np < 0 ∨ ctx.file_size < np →
      thumbnail_avio_seek ctx offset whence = (-1, ctx))
  ∧ (∀ ctx : ThumbCtx,
      thumbnail_avio_seek ctx (ctx.file_size + 1) SEEK_SET = (-1, ctx)) := by
  refine ⟨?_, ?_, ?_, ?_⟩
  · rintro ctx offset whence np (⟨hw, hn⟩ | ⟨hw, hn⟩ | ⟨hw, hn⟩) hout <;>
      subst hw <;> subst hn <;>
      simp only [avio_seek_callback, SEEK_SET, SEEK_CUR, SEEK_END, AVSEEK_SIZE] <;>
      norm_num <;>
      exact fun h1 h2 => absurd hout (by omega)
  · intro ctx
    simp only [avio_seek_callback, SEEK_SET, AVSEEK_SIZE]
    norm_num
  · rintro ctx offset whence np (⟨hw, hn⟩ | ⟨hw, hn⟩ | ⟨hw, hn⟩) hout <;>
      subst hw <;> subst hn <;>
      simp only [thumbnail_avio_seek, SEEK_SET, SEEK_CUR, SEEK_END, AVSEEK_SIZE] <;>
      norm_num <;>
      exact fun h1 h2 => absurd hout (by omega)
  · intro ctx
    simp only [thumbnail_avio_seek, SEEK_SET, AVSEEK_SIZE]
    norm_num

/-- Witness for C3: with `position = 1000`, `file_size = 5000`, seeking
absolutely to `file_size + 1 = 5001` fails with `-1` and an unchanged
context, relatively to current by `-1200` (target `-200 < 0`) fails the
same way, and likewise on the thumbnail context. -/
theorem C3_seek_bounds_atomicity_witness :
    avio_seek_callback demoCtx (demoCtx.file_size + 1) SEEK_SET = (-1, demoCtx)
  ∧ avio_seek_callback demoCtx (-1200) SEEK_CUR = (-1, demoCtx)
  ∧ thumbnail_avio_seek demoThumbCtx (demoThumbCtx.file_size + 1) SEEK_SET =
      (-1, demoThumbCtx) :=
  ⟨C3_seek_bounds_atomicity.2.1 demoCtx,
   C3_seek_bounds_atomicity.1 demoCtx (-1200) SEEK_CUR
     (toInt64 (demoCtx.position + -1200)) (Or.inr (Or.inl ⟨rfl, rfl⟩))
     (by decide),
   C3_seek_bounds_atomicity.2.2.2 demoThumbCtx⟩

/-- C4: Read advances the position by the actual count only.  When the
provider reports `n > 0` bytes read, both read callbacks return `n` and
advance the cursor by exactly `n` (never by the requested size, which the
callbacks do not even consult); when the provider reports `0`, they
return the end-of-stream signal `AVERROR_EOF` (a negative value distinct
from a byte count) and leave the cursor unchanged. -/
theorem C4_read_advance_by_actual_count :
    (∀ (ctx : MoviCtx) (n : Int), 0 < n →
      -(2 ^ 63) ≤ ctx.position + n → ctx.position + n < 2 ^ 63 →
      avio_read_callback ctx n = (n, { ctx with position := ctx.position + n }))
  ∧ (∀ ctx : MoviCtx, avio_read_callback ctx 0 = (AVERROR_EOF, ctx))
  ∧ AVERROR_EOF < 0
  ∧ (∀ (ctx : ThumbCtx) (n : Int), 0 < n →
      -(2 ^ 63) ≤ ctx.position + n → ctx.position + n < 2 ^ 63 →
      thumbnail_avio_read ctx n =
        (n, { ctx with position := ctx.position + n }))
  ∧ (∀ ctx : ThumbCtx, thumbnail_avio_read ctx 0 = (AVERROR_EOF, ctx)) := by
  refine ⟨?_, ?_, by decide, ?_, ?_⟩
  · intro ctx n hn h1 h2
    simp only [avio_read_callback, if_pos hn, toInt64_eq_self (ctx.position + n) h1 h2]
  · intro ctx
    simp [avio_read_callback]
  · intro ctx n hn h1 h2
    simp only [thumbnail_avio_read, if_pos hn,
      toInt64_eq_self (ctx.position + n) h1 h2]
  · intro ctx
    simp [thumbnail_avio_read]

/-- Witness for C4: a short read of 300 bytes at `position = 1000`
advances the cursor to exactly 1300 and returns 300; a zero-byte read
returns `AVERROR_EOF` with the cursor unchanged; likewise on the
thumbnail context. -/
theorem C4_read_advance_by_actual_count_witness :
    avio_read_callback demoCtx 300 = (300, { demoCtx with position := 1300 })
  ∧ avio_read_callback demoCtx 0 = (AVERROR_EOF, demoCtx)
  ∧ thumbnail_avio_read demoThumbCtx 300 =
      (300, { demoThumbCtx with position := 1300 }) :=
  ⟨(C4_read_advance_by_actual_count.1 demoCtx 300 (by decide) (by decide)
      (by decide)).trans (by decide),
   C4_read_advance_by_actual_count.2.1 demoCtx,
   (C4_read_advance_by_actual_count.2.2.2.1 demoThumbCtx 300 (by decide)
      (by decide) (by decide)).trans (by decide)⟩

/-- C10: Read-error atomicity.  When the provider reports a negative
value, both read callbacks return that value unchanged and leave the
cursor untouched; the cursor is modified only when the reported count is
strictly positive. -/
theorem C10_read_error_atomicity :
    (∀ (ctx : MoviCtx) (n : Int), n < 0 → avio_read_callback ctx n = (n, ctx))
  ∧ (∀ (ctx : MoviCtx) (n : Int),
      (avio_read_callback ctx n).2.position ≠ ctx.position → 0 < n)
  ∧ (∀ (ctx : ThumbCtx) (n : Int), n < 0 →
      thumbnail_avio_read ctx n = (n, ctx))
  ∧ (∀ (ctx : ThumbCtx) (n : Int),
      (thumbnail_avio_read ctx n).2.position ≠ ctx.position → 0 < n) := by
  refine ⟨?_, ?_, ?_, ?_⟩
  · intro ctx n hn
    simp only [avio_read_callback, if_neg (by omega : ¬ 0 < n),
      if_neg (by omega : ¬ n = 0)]
  · intro ctx n h
    by_contra hn
    apply h
    simp only [avio_read_callback, if_neg hn]
    split <;> rfl
  · intro ctx n hn
    simp only [thumbnail_avio_read, if_neg (by omega : ¬ 0 < n),
      if_neg (by omega : ¬ n = 0)]
  · intro ctx n h
    by_contra hn
    apply h
    simp only [thumbnail_avio_read, if_neg hn]
    split <;> rfl

/-- Witness for C10: a provider error `-5` is returned unchanged with the
cursor still at 1000, on both contexts. -/
theorem C10_read_error_atomicity_witness :
    avio_read_callback demoCtx (-5) = (-5, demoCtx)
  ∧ thumbnail_avio_read demoThumbCtx (-5) = (-5, demoThumbCtx) :=
  ⟨C10_read_error_atomicity.1 demoCtx (-5) (by decide),
   C10_read_error_atomicity.2.2.1 demoThumbCtx (-5) (by decide)⟩

/-- C9: Post-seek resynchronization.  On every successful seek through
`movi_seek_to` or the locator's seek phase — whatever the external seek
functions do to the I/O layer — the AVIO buffering layer ends up flushed
(no read-ahead data retained), and the session's authoritative position
equals the absolute position the I/O layer reports via `avio_tell` after
the seek, rather than any requested target. -/
theorem C9_post_seek_resync :
    (∀ (seekFile seekFrame : AvioState → Int × AvioState) (ctx : MoviCtx),
      0 ≤ (movi_seek_to seekFile seekFrame ctx).1 →
        (movi_seek_to seekFile seekFrame ctx).2.avio.buffered = false ∧
        (movi_seek_to seekFile seekFrame ctx).2.position =
          avio_tell (movi_seek_to seekFile seekFrame ctx).2.avio)
  ∧ (∀ (seekFile seekFrame : AvioState → Int × AvioState) (ctx : ThumbCtx),
      0 ≤ (thumb_seek_phase seekFile seekFrame ctx).1 →
        (thumb_seek_phase seekFile seekFrame ctx).2.avio.buffered = false ∧
        (thumb_seek_phase seekFile seekFrame ctx).2.position =
          avio_tell (thumb_seek_phase seekFile seekFrame ctx).2.avio) := by
  constructor
  · intro f g ctx h
    simp only [movi_seek_to, avio_flush, avio_tell, avio_seek_abs] at h ⊢
    split_ifs at h ⊢ <;> simp_all
  · intro f g ctx h
    simp only [thumb_seek_phase, avio_flush, avio_tell, avio_seek_abs] at h ⊢
    split_ifs at h ⊢ <;> simp_all <;> omega

/-- Witness for C9: a seek that reports success and leaves the I/O layer
at byte 4096 with stale read-ahead data ends with the buffer flushed and
`position = 4096` (not the session's previous position 1000), in the
non-Matroska case, in the Matroska case (where the confirmed position is
re-issued as an absolute seek), and in the locator's seek phase. -/
theorem C9_post_seek_resync_witness :
    ((movi_seek_to (fun _ => (7, ⟨4096, true⟩)) (fun a => (-1, a))
        demoCtx).2.avio.buffered = false ∧
      (movi_seek_to (fun _ => (7, ⟨4096, true⟩)) (fun a => (-1, a))
        demoCtx).2.position =
        avio_tell (movi_seek_to (fun _ => (7, ⟨4096, true⟩)) (fun a => (-1, a))
          demoCtx).2.avio)
  ∧ ((movi_seek_to (fun _ => (0, ⟨2500, true⟩)) (fun a => (-1, a))
        ⟨1000, 5000, ⟨0, true⟩, "matroska"⟩).2.avio.buffered = false ∧
      (movi_seek_to (fun _ => (0, ⟨2500, true⟩)) (fun a => (-1, a))
        ⟨1000, 5000, ⟨0, true⟩, "matroska"⟩).2.position =
        avio_tell (movi_seek_to (fun _ => (0, ⟨2500, true⟩)) (fun a => (-1, a))
          ⟨1000, 5000, ⟨0, true⟩, "matroska"⟩).2.avio)
  ∧ ((thumb_seek_phase (fun _ => (7, ⟨4096, true⟩)) (fun a => (-1, a))
        demoThumbCtx).2.avio.buffered = false ∧
      (thumb_seek_phase (fun _ => (7, ⟨4096, true⟩)) (fun a => (-1, a))
        demoThumbCtx).2.position =
        avio_tell (thumb_seek_phase (fun _ => (7, ⟨4096, true⟩))
          (fun a => (-1, a)) demoThumbCtx).2.avio) :=
  ⟨C9_post_seek_resync.1 (fun _ => (7, ⟨4096, true⟩)) (fun a => (-1, a))
      demoCtx (by decide),
   C9_post_seek_resync.1 (fun _ => (0, ⟨2500, true⟩)) (fun a => (-1, a))
      ⟨1000, 5000, ⟨0, true⟩, "matroska"⟩ (by decide),
   C9_post_seek_resync.2 (fun _ => (7, ⟨4096, true⟩)) (fun a => (-1, a))
      demoThumbCtx (by decide)⟩

theorem betterEq_self (target : Int) (p : ThumbPacket) :
    BetterEq target p (distTo target p) p :=
  Or.inr ⟨rfl, le_refl _⟩

theorem weak_trans {d d2 d0 pb pb2 pb0 : Int}
    (h1 : d < d2 ∨ (d = d2 ∧ pb ≤ pb2)) (h2 : d2 < d0 ∨ (d2 = d0 ∧ pb2 ≤ pb0)) :
    d < d0 ∨ (d = d0 ∧ pb ≤ pb0) := by
  omega

theorem betterEq_of_weak {target : Int} {b : ThumbPacket} {d : Int}
    {b2 : ThumbPacket} {d2 : Int} {q : ThumbPacket}
    (h1 : d < d2 ∨ (d = d2 ∧ effective_pts b ≤ effective_pts b2))
    (h2 : BetterEq target b2 d2 q) : BetterEq target b d q := by
  unfold BetterEq at *
  omega

/-- On differences of magnitude below `2^63` the scan's wrapping
distance coincides with the true absolute distance. -/
theorem distTo_eq_abs {target : Int} {p : ThumbPacket}
    (h1 : -(2 ^ 63) < effective_pts p - target)
    (h2 : effective_pts p - target < 2 ^ 63) :
    distTo target p = |effective_pts p - target| := by
  unfold distTo llabs64 toInt64
  rcases abs_cases (effective_pts p - target) with ⟨h3, h4⟩ | ⟨h3, h4⟩ <;>
    split_ifs <;> omega

theorem update_keeps {target : Int} {p b0 : ThumbPacket} {d0 : Int}
    (hd0 : d0 = |effective_pts b0 - target|)
    (hp : distTo target p = |effective_pts p - target|)
    (hcond : ¬(distTo target p < d0 ∨
      (distTo target p = d0 ∧ effective_pts p < target))) :
    BetterEq target b0 d0 p := by
  unfold BetterEq
  rw [hp] at hcond ⊢
  rcases abs_cases (effective_pts p - target) with ⟨h1, h2⟩ | ⟨h1, h2⟩ <;>
    rcases abs_cases (effective_pts b0 - target) with ⟨h3, h4⟩ | ⟨h3, h4⟩ <;>
    omega

theorem update_takes {target : Int} {p b0 : ThumbPacket} {d0 : Int}
    (hd0 : d0 = |effective_pts b0 - target|)
    (hp : distTo target p = |effective_pts p - target|)
    (hcond : distTo target p < d0 ∨
      (distTo target p = d0 ∧ effective_pts p < target)) :
    distTo target p < d0 ∨
      (distTo target p = d0 ∧ effective_pts p ≤ effective_pts b0) := by
  rw [hp] at hcond ⊢
  rcases abs_cases (effective_pts p - target) with ⟨h1, h2⟩ | ⟨h1, h2⟩ <;>
    rcases abs_cases (effective_pts b0 - target) with ⟨h3, h4⟩ | ⟨h3, h4⟩ <;>
    omega

theorem considered_isCandidate (vid target : Int) :
    ∀ (fuel : Nat) (pkts : List ThumbPacket) (q : ThumbPacket),
      q ∈ consideredUnits vid target fuel pkts → isCandidate vid q = true := by
  intro fuel
  induction fuel with
  | zero => intro pkts q hq; simp [consideredUnits] at hq
  | succ n ih =>
    intro pkts q hq
    match pkts with
    | [] => simp [consideredUnits] at hq
    | p :: rest =>
      simp only [consideredUnits] at hq
      by_cases hc : isCandidate vid p
      · rw [if_pos hc] at hq
        by_cases ht : target < effective_pts p
        · rw [if_pos ht] at hq
          simp at hq
          subst hq
          exact hc
        · rw [if_neg ht] at hq
          rcases List.mem_cons.mp hq with h | h
          · subst h; exact hc
          · exact ih rest q h
      · rw [if_neg hc] at hq
        exact ih rest q hq

theorem scanLoop_take (vid target : Int) :
    ∀ (fuel : Nat) (pkts : List ThumbPacket) (best : Option (ThumbPacket × Int)),
      scanLoop vid target fuel (pkts.take fuel) best =
        scanLoop vid target fuel pkts best := by
  intro fuel
  induction fuel with
  | zero => intro pkts best; rfl
  | succ n ih =>
    intro pkts best
    cases pkts with
    | nil => rfl
    | cons p rest =>
      simp only [List.take, scanLoop]
      by_cases hc : isCandidate vid p
      · rw [if_pos hc, if_pos hc]
        by_cases ht : target < effective_pts p
        · rw [if_pos ht, if_pos ht]
        · rw [if_neg ht, if_neg ht]
          exact ih rest _
      · rw [if_neg hc, if_neg hc]
        exact ih rest best

/-- Basic outcome facts about the scan loop, with no restriction on
timestamps: a `none` result means no candidate was examined, an empty
candidate set yields `none`, and a `some (b, d)` result carries the
computed distance of `b`, which is the incoming best or an examined
candidate. -/
theorem scanLoop_basic (vid target : Int) :
    ∀ (fuel : Nat) (pkts : List ThumbPacket) (best : Option (ThumbPacket × Int)),
      (∀ b0 d0, best = some (b0, d0) → d0 = distTo target b0) →
      (scanLoop vid target fuel pkts best = none →
          best = none ∧ consideredUnits vid target fuel pkts = []) ∧
      (best = none → consideredUnits vid target fuel pkts = [] →
          scanLoop vid target fuel pkts best = none) ∧
      (∀ b d, scanLoop vid target fuel pkts best = some (b, d) →
        d = distTo target b ∧
        (best = some (b, d) ∨ b ∈ consideredUnits vid target fuel pkts)) := by
  intro fuel
  induction fuel with
  | zero =>
    intro pkts best hInv
    refine ⟨?_, ?_, ?_⟩
    · intro hr
      simp only [scanLoop] at hr
      exact ⟨hr, rfl⟩
    · intro h1 _
      simp only [scanLoop]
      exact h1
    · intro b d hr
      simp only [scanLoop] at hr
      subst hr
      exact ⟨hInv b d rfl, Or.inl rfl⟩
  | succ n ih =>
    intro pkts best hInv
    cases pkts with
    | nil =>
      refine ⟨?_, ?_, ?_⟩
      · intro hr
        simp only [scanLoop] at hr
        exact ⟨hr, rfl⟩
      · intro h1 _
        simp only [scanLoop]
        exact h1
      · intro b d hr
        simp only [scanLoop] at hr
        subst hr
        exact ⟨hInv b d rfl, Or.inl rfl⟩
    | cons p rest =>
      by_cases hc : isCandidate vid p
      · rcases best with _ | ⟨b0, d0⟩
        · by_cases ht : target < effective_pts p
          · refine ⟨?_, ?_, ?_⟩
            · intro hr
              simp only [scanLoop, if_pos hc, if_pos ht] at hr
              exact Option.noConfusion hr
            · intro _ h2
              simp only [consideredUnits, if_pos hc, if_pos ht] at h2
              exact List.noConfusion h2
            · intro b d hr
              simp only [scanLoop, if_pos hc, if_pos ht] at hr
              simp only [consideredUnits, if_pos hc, if_pos ht]
              injection hr with h1
              injection h1 with hb hd
              subst hb
              subst hd
              exact ⟨rfl, Or.inr (List.mem_singleton.mpr rfl)⟩
          · refine ⟨?_, ?_, ?_⟩
            · intro hr
              simp only [scanLoop, if_pos hc, if_neg ht] at hr
              have hInv2 : ∀ b0 d0,
                  (some (p, llabs64 (toInt64 (effective_pts p - target))) :
                    Option (ThumbPacket × Int)) = some (b0, d0) →
                    d0 = distTo target b0 := by
                intro b0 d0 h
                injection h with h1
                injection h1 with hb hd
                subst hb
                subst hd
                rfl
              exact Option.noConfusion ((ih rest _ hInv2).1 hr).1
            · intro _ h2
              simp only [consideredUnits, if_pos hc, if_neg ht] at h2
              exact List.noConfusion h2
            · intro b d hr
              simp only [scanLoop, if_pos hc, if_neg ht] at hr
              simp only [consideredUnits, if_pos hc, if_neg ht]
              have hInv2 : ∀ b0 d0,
                  (some (p, llabs64 (toInt64 (effective_pts p - target))) :
                    Option (ThumbPacket × Int)) = some (b0, d0) →
                    d0 = distTo target b0 := by
                intro b0 d0 h
                injection h with h1
                injection h1 with hb hd
                subst hb
                subst hd
                rfl
              obtain ⟨h1, h2⟩ := (ih rest _ hInv2).2.2 b d hr
              refine ⟨h1, ?_⟩
              rcases h2 with h2 | h2
              · injection h2 with h2a
                injection h2a with hb hd
                exact Or.inr (by rw [hb]; exact List.mem_cons_self _ _)
              · exact Or.inr (List.mem_cons_of_mem _ h2)
        · have hd0 : d0 = distTo target b0 := hInv b0 d0 rfl
          by_cases hcond : llabs64 (toInt64 (effective_pts p - target)) < d0 ∨
              (llabs64 (toInt64 (effective_pts p - target)) = d0 ∧
                effective_pts p < target)
          · by_cases ht : target < effective_pts p
            · refine ⟨?_, ?_, ?_⟩
              · intro hr
                simp only [scanLoop, if_pos hc, if_pos hcond, if_pos ht] at hr
                exact Option.noConfusion hr
              · intro h1 _
                exact Option.noConfusion h1
              · intro b d hr
                simp only [scanLoop, if_pos hc, if_pos hcond, if_pos ht] at hr
                simp only [consideredUnits, if_pos hc, if_pos ht]
                injection hr with h1
                injection h1 with hb hd
                subst hb
                subst hd
                exact ⟨rfl, Or.inr (List.mem_singleton.mpr rfl)⟩
            · refine ⟨?_, ?_, ?_⟩
              · intro hr
                simp only [scanLoop, if_pos hc, if_pos hcond, if_neg ht] at hr
                have hInv2 : ∀ b0' d0',
                    (some (p, llabs64 (toInt64 (effective_pts p - target))) :
                      Option (ThumbPacket × Int)) = some (b0', d0') →
                      d0' = distTo target b0' := by
                  intro b0' d0' h
                  injection h with h1
                  injection h1 with hb hd
                  subst hb
                  subst hd
                  rfl
                exact Option.noConfusion ((ih rest _ hInv2).1 hr).1
              · intro h1 _
                exact Option.noConfusion h1
              · intro b d hr
                simp only [scanLoop, if_pos hc, if_pos hcond, if_neg ht] at hr
                simp only [consideredUnits, if_pos hc, if_neg ht]
                have hInv2 : ∀ b0' d0',
                    (some (p, llabs64 (toInt64 (effective_pts p - target))) :
                      Option (ThumbPacket × Int)) = some (b0', d0') →
                      d0' = distTo target b0' := by
                  intro b0' d0' h
                  injection h with h1
                  injection h1 with hb hd
                  subst hb
                  subst hd
                  rfl
                obtain ⟨h1, h2⟩ := (ih rest _ hInv2).2.2 b d hr
                refine ⟨h1, ?_⟩
                rcases h2 with h2 | h2
                · injection h2 with h2a
                  injection h2a with hb hd
                  exact Or.inr (by rw [hb]; exact List.mem_cons_self _ _)
                · exact Or.inr (List.mem_cons_of_mem _ h2)
          · by_cases ht : target < effective_pts p
            · refine ⟨?_, ?_, ?_⟩
              · intro hr
                simp only [scanLoop, if_pos hc, if_neg hcond, if_pos ht] at hr
                exact Option.noConfusion hr
              · intro h1 _
                exact Option.noConfusion h1
              · intro b d hr
                simp only [scanLoop, if_pos hc, if_neg hcond, if_pos ht] at hr
                simp only [consideredUnits, if_pos hc, if_pos ht]
                injection hr with h1
                injection h1 with hb hd
                subst hb
                subst hd
                exact ⟨hd0, Or.inl rfl⟩
            · refine ⟨?_, ?_, ?_⟩
              · intro hr
                simp only [scanLoop, if_pos hc, if_neg hcond, if_neg ht] at hr
                have hInv2 : ∀ b0' d0',
                    (some (b0, d0) : Option (ThumbPacket × Int)) = some (b0', d0') →
                      d0' = distTo target b0' := by
                  intro b0' d0' h
                  injection h with h1
                  injection h1 with hb hd
                  subst hb
                  subst hd
                  exact hd0
                exact Option.noConfusion ((ih rest _ hInv2).1 hr).1
              · intro h1 _
                exact Option.noConfusion h1
              · intro b d hr
                simp only [scanLoop, if_pos hc, if_neg hcond, if_neg ht] at hr
                simp only [consideredUnits, if_pos hc, if_neg ht]
                have hInv2 : ∀ b0' d0',
                    (some (b0, d0) : Option (ThumbPacket × Int)) = some (b0', d0') →
                      d0' = distTo target b0' := by
                  intro b0' d0' h
                  injection h with h1
                  injection h1 with hb hd
                  subst hb
                  subst hd
                  exact hd0
                obtain ⟨h1, h2⟩ := (ih rest _ hInv2).2.2 b d hr
                refine ⟨h1, ?_⟩
                rcases h2 with h2 | h2
                · exact Or.inl h2
                · exact Or.inr (List.mem_cons_of_mem _ h2)
      · refine ⟨?_, ?_, ?_⟩
        · intro hr
          simp only [scanLoop, if_neg hc] at hr
          have h := (ih rest best hInv).1 hr
          simp only [consideredUnits, if_neg hc]
          exact h
        · intro h1 h2
          simp only [consideredUnits, if_neg hc] at h2
          simp only [scanLoop, if_neg hc]
          exact (ih rest best hInv).2.1 h1 h2
        · intro b d hr
          simp only [scanLoop, if_neg hc] at hr
          simp only [consideredUnits, if_neg hc]
          exact (ih rest best hInv).2.2 b d hr

/-- Minimality of the scan result on the no-wrap domain: when every
examined candidate's timestamp is within `2^63` of the target (so the
wrapping distance computation agrees with the true distance), the
returned candidate beats every examined candidate under `BetterEq`, and
is at least as good as the incoming best. -/
theorem scanLoop_minimal (vid target : Int) :
    ∀ (fuel : Nat) (pkts : List ThumbPacket) (best : Option (ThumbPacket × Int)),
      (∀ b0 d0, best = some (b0, d0) → d0 = distTo target b0 ∧
        -(2 ^ 63) < effective_pts b0 - target ∧
        effective_pts b0 - target < 2 ^ 63) →
      (∀ q ∈ consideredUnits vid target fuel pkts,
        -(2 ^ 63) < effective_pts q - target ∧
        effective_pts q - target < 2 ^ 63) →
      ∀ b d, scanLoop vid target fuel pkts best = some (b, d) →
        (∀ q ∈ consideredUnits vid target fuel pkts, BetterEq target b d q) ∧
        (∀ b0 d0, best = some (b0, d0) →
          d < d0 ∨ (d = d0 ∧ effective_pts b ≤ effective_pts b0)) := by
  intro fuel
  induction fuel with
  | zero =>
    intro pkts best hInv hB b d hr
    simp only [scanLoop] at hr
    subst hr
    refine ⟨?_, ?_⟩
    · intro q hq
      simp [consideredUnits] at hq
    · intro b0 d0 hb0
      injection hb0 with h1
      injection h1 with hb hd
      subst hb
      subst hd
      exact Or.inr ⟨rfl, le_refl _⟩
  | succ n ih =>
    intro pkts best hInv hB
    cases pkts with
    | nil =>
      intro b d hr
      simp only [scanLoop] at hr
      subst hr
      refine ⟨?_, ?_⟩
      · intro q hq
        simp [consideredUnits] at hq
      · intro b0 d0 hb0
        injection hb0 with h1
        injection h1 with hb hd
        subst hb
        subst hd
        exact Or.inr ⟨rfl, le_refl _⟩
    | cons p rest =>
      by_cases hc : isCandidate vid p
      · rcases best with _ | ⟨b0, d0⟩
        · by_cases ht : target < effective_pts p
          · intro b d hr
            simp only [scanLoop, if_pos hc, if_pos ht] at hr
            simp only [consideredUnits, if_pos hc, if_pos ht]
            injection hr with h1
            injection h1 with hb hd
            subst hb
            subst hd
            refine ⟨?_, ?_⟩
            · intro q hq
              rw [List.mem_singleton] at hq
              subst hq
              exact betterEq_self target q
            · intro b0 d0 hb0
              exact Option.noConfusion hb0
          · simp only [consideredUnits, if_pos hc, if_neg ht] at hB ⊢
            have hbp := hB p (List.mem_cons_self _ _)
            have hInv2 : ∀ b0 d0,
                (some (p, llabs64 (toInt64 (effective_pts p - target))) :
                  Option (ThumbPacket × Int)) = some (b0, d0) →
                  d0 = distTo target b0 ∧
                  -(2 ^ 63) < effective_pts b0 - target ∧
                  effective_pts b0 - target < 2 ^ 63 := by
              intro b0 d0 h
              injection h with h1
              injection h1 with hb hd
              subst hb
              subst hd
              exact ⟨rfl, hbp.1, hbp.2⟩
            have hB2 : ∀ q ∈ consideredUnits vid target n rest,
                -(2 ^ 63) < effective_pts q - target ∧
                effective_pts q - target < 2 ^ 63 :=
              fun q hq => hB q (List.mem_cons_of_mem _ hq)
            intro b d hr
            simp only [scanLoop, if_pos hc, if_neg ht] at hr
            obtain ⟨h3, h4⟩ := ih rest _ hInv2 hB2 b d hr
            refine ⟨?_, ?_⟩
            · intro q hq
              rcases List.mem_cons.mp hq with hq | hq
              · subst hq
                exact betterEq_of_weak
                  (h4 q (llabs64 (toInt64 (effective_pts q - target))) rfl)
                  (betterEq_self target q)
              · exact h3 q hq
            · intro b0 d0 hb0
              exact Option.noConfusion hb0
        · obtain ⟨hd0w, hb0a, hb0b⟩ := hInv b0 d0 rfl
          have hd0 : d0 = |effective_pts b0 - target| := by
            rw [hd0w]
            exact distTo_eq_abs hb0a hb0b
          by_cases ht : target < effective_pts p
          · simp only [consideredUnits, if_pos hc, if_pos ht] at hB ⊢
            have hbp := hB p (List.mem_singleton.mpr rfl)
            have hpabs : distTo target p = |effective_pts p - target| :=
              distTo_eq_abs hbp.1 hbp.2
            by_cases hcond : llabs64 (toInt64 (effective_pts p - target)) < d0 ∨
                (llabs64 (toInt64 (effective_pts p - target)) = d0 ∧
                  effective_pts p < target)
            · have htake := update_takes hd0 hpabs hcond
              intro b d hr
              simp only [scanLoop, if_pos hc, if_pos hcond, if_pos ht] at hr
              injection hr with h1
              injection h1 with hb hd
              subst hb
              subst hd
              refine ⟨?_, ?_⟩
              · intro q hq
                rw [List.mem_singleton] at hq
                subst hq
                exact betterEq_self target q
              · intro b0' d0' hb0'
                injection hb0' with h1
                injection h1 with hb' hd'
                subst hb'
                subst hd'
                exact htake
            · have hkeep := update_keeps hd0 hpabs hcond
              intro b d hr
              simp only [scanLoop, if_pos hc, if_neg hcond, if_pos ht] at hr
              injection hr with h1
              injection h1 with hb hd
              subst hb
              subst hd
              refine ⟨?_, ?_⟩
              · intro q hq
                rw [List.mem_singleton] at hq
                subst hq
                exact hkeep
              · intro b0' d0' hb0'
                injection hb0' with h1
                injection h1 with hb' hd'
                subst hb'
                subst hd'
                exact Or.inr ⟨rfl, le_refl _⟩
          · simp only [consideredUnits, if_pos hc, if_neg ht] at hB ⊢
            have hbp := hB p (List.mem_cons_self _ _)
            have hpabs : distTo target p = |effective_pts p - target| :=
              distTo_eq_abs hbp.1 hbp.2
            have hB2 : ∀ q ∈ consideredUnits vid target n rest,
                -(2 ^ 63) < effective_pts q - target ∧
                effective_pts q - target < 2 ^ 63 :=
              fun q hq => hB q (List.mem_cons_of_mem _ hq)
            by_cases hcond : llabs64 (toInt64 (effective_pts p - target)) < d0 ∨
                (llabs64 (toInt64 (effective_pts p - target)) = d0 ∧
                  effective_pts p < target)
            · have htake := update_takes hd0 hpabs hcond
              have hInv2 : ∀ b0' d0',
                  (some (p, llabs64 (toInt64 (effective_pts p - target))) :
                    Option (ThumbPacket × Int)) = some (b0', d0') →
                    d0' = distTo target b0' ∧
                    -(2 ^ 63) < effective_pts b0' - target ∧
                    effective_pts b0' - target < 2 ^ 63 := by
                intro b0' d0' h
                injection h with h1
                injection h1 with hb hd
                subst hb
                subst hd
                exact ⟨rfl, hbp.1, hbp.2⟩
              intro b d hr
              simp only [scanLoop, if_pos hc, if_pos hcond, if_neg ht] at hr
              obtain ⟨h3, h4⟩ := ih rest _ hInv2 hB2 b d hr
              refine ⟨?_, ?_⟩
              · intro q hq
                rcases List.mem_cons.mp hq with hq | hq
                · subst hq
                  exact betterEq_of_weak
                    (h4 q (llabs64 (toInt64 (effective_pts q - target))) rfl)
                    (betterEq_self target q)
                · exact h3 q hq
              · intro b0' d0' hb0'
                injection hb0' with h1
                injection h1 with hb' hd'
                subst hb'
                subst hd'
                exact weak_trans
                  (h4 p (llabs64 (toInt64 (effective_pts p - target))) rfl) htake
            · have hkeep := update_keeps hd0 hpabs hcond
              have hInv2 : ∀ b0' d0',
                  (some (b0, d0) : Option (ThumbPacket × Int)) = some (b0', d0') →
                    d0' = distTo target b0' ∧
                    -(2 ^ 63) < effective_pts b0' - target ∧
                    effective_pts b0' - target < 2 ^ 63 := by
                intro b0' d0' h
                injection h with h1
                injection h1 with hb hd
                subst hb
                subst hd
                exact ⟨hd0w, hb0a, hb0b⟩
              intro b d hr
              simp only [scanLoop, if_pos hc, if_neg hcond, if_neg ht] at hr
              obtain ⟨h3, h4⟩ := ih rest _ hInv2 hB2 b d hr
              refine ⟨?_, ?_⟩
              · intro q hq
                rcases List.mem_cons.mp hq with hq | hq
                · subst hq
                  exact betterEq_of_weak (h4 b0 d0 rfl) hkeep
                · exact h3 q hq
              · intro b0' d0' hb0'
                injection hb0' with h1
                injection h1 with hb' hd'
                subst hb'
                subst hd'
                exact h4 b0 d0 rfl
      · simp only [consideredUnits, if_neg hc] at hB ⊢
        intro b d hr
        simp only [scanLoop, if_neg hc] at hr
        exact ih rest best hInv hB b d hr

theorem candidate_size_pos {vid : Int} {q : ThumbPacket}
    (h : isCandidate vid q = true) : 0 < q.size := by
  simp only [isCandidate, Bool.and_eq_true, decide_eq_true_eq] at h
  exact h.1.2

/-- Counterexample for C6 as stated: the program computes the candidate
distance with wrapping `int64` arithmetic (movi_thumbnail.c line 332), so
at target `2^62` with scanned key candidates at timestamps `-2^62 - 2`
and then `-2^62 - 1` the scan keeps the first unit (wrapped distances
`2^63 - 2 < 2^63 - 1`), although the second scanned unit is strictly
closer to the target in true distance (`2^63 + 1 < 2^63 + 2`) — the
locator does not in general return the candidate minimizing
`|unit.timestamp - target|`. -/
theorem C6_locator_nearest_selection_counterexample :
    movi_thumbnail_scan 0 4611686018427387904
        [⟨0, true, 1, -4611686018427387906, -4611686018427387906⟩,
         ⟨0, true, 2, -4611686018427387905, -4611686018427387905⟩] =
      some (⟨0, true, 1, -4611686018427387906, -4611686018427387906⟩,
        9223372036854775806)
  ∧ (⟨0, true, 2, -4611686018427387905, -4611686018427387905⟩ : ThumbPacket) ∈
      consideredUnits 0 4611686018427387904 max_packets
        [⟨0, true, 1, -4611686018427387906, -4611686018427387906⟩,
         ⟨0, true, 2, -4611686018427387905, -4611686018427387905⟩]
  ∧ |effective_pts ⟨0, true, 2, -4611686018427387905, -4611686018427387905⟩ -
        4611686018427387904| <
      |effective_pts ⟨0, true, 1, -4611686018427387906, -4611686018427387906⟩ -
        4611686018427387904| := by
  decide

/-- C6 (amended): Locator nearest selection on the no-wrap domain.  The
keyframe scan skips every access unit that is not a key unit of the
target stream with a valid timestamp (such a unit only consumes scan
budget) and stops scanning as soon as a candidate's timestamp strictly
exceeds the target.  When every examined candidate's timestamp is within
`2^63` of the target — so the 64-bit distance computation cannot wrap;
always the case at real media timescales — a returned candidate was
among the examined key units, its recorded distance is the true
`|timestamp - target|` (as is every examined unit's computed distance),
and it beats every examined key unit: strictly smaller distance, or
equal distance with a timestamp at or before the other's (ties broken in
favor of the earlier timestamp).  In particular, for key units at
{0, 2, 4, 6, 8} seconds in a 1/10-second time base, target 5.1 s (native
51) returns the unit at 6 s with distance 9, and target 4.0 s (native
40) returns the unit at 4 s with distance 0.  Outside that domain the
wrapping distance can select a farther unit (see the counterexample). -/
theorem C6_locator_nearest_selection :
    (∀ (vid target : Int) (fuel : Nat) (rest : List ThumbPacket)
        (best : Option (ThumbPacket × Int)) (p : ThumbPacket),
      isCandidate vid p = false →
      scanLoop vid target (fuel + 1) (p :: rest) best =
        scanLoop vid target fuel rest best)
  ∧ (∀ (vid target : Int) (fuel : Nat) (rest : List ThumbPacket)
        (best : Option (ThumbPacket × Int)) (p : ThumbPacket),
      isCandidate vid p = true → target < effective_pts p →
      scanLoop vid target (fuel + 1) (p :: rest) best =
        scanLoop vid target (fuel + 1) [p] best)
  ∧ (∀ (vid target : Int) (fuel : Nat) (pkts : List ThumbPacket)
        (b : ThumbPacket) (d : Int),
      (∀ q ∈ consideredUnits vid target fuel pkts,
        -(2 ^ 63) < effective_pts q - target ∧
        effective_pts q - target < 2 ^ 63) →
      scanLoop vid target fuel pkts none = some (b, d) →
      d = distTo target b ∧ b ∈ consideredUnits vid target fuel pkts ∧
        (∀ q ∈ consideredUnits vid target fuel pkts,
          distTo target q = |effective_pts q - target|) ∧
        ∀ q ∈ consideredUnits vid target fuel pkts, BetterEq target b d q)
  ∧ movi_thumbnail_scan 0 51 exampleUnits = some (exampleUnit60, 9)
  ∧ movi_thumbnail_scan 0 40 exampleUnits = some (exampleUnit40, 0) := by
  refine ⟨?_, ?_, ?_, by decide, by decide⟩
  · intro vid target fuel rest best p h
    simp only [scanLoop, h, Bool.false_eq_true, if_false]
  · intro vid target fuel rest best p hc ht
    simp only [scanLoop, hc, if_true, if_pos ht]
  · intro vid target fuel pkts b d hB hr
    obtain ⟨h1, h2⟩ :=
      (scanLoop_basic vid target fuel pkts none
        (fun b0 d0 h => Option.noConfusion h)).2.2 b d hr
    obtain ⟨h3, _⟩ :=
      scanLoop_minimal vid target fuel pkts none
        (fun b0 d0 h => Option.noConfusion h) hB b d hr
    exact ⟨h1, h2.resolve_left (fun hcontra => Option.noConfusion hcontra),
      fun q hq => distTo_eq_abs (hB q hq).1 (hB q hq).2, h3⟩

/-- Witness for C6: a non-key-stream packet is skipped; a candidate past
the target ends the scan regardless of what follows; and, on the example
stream (whose timestamps are all within `2^63` of the target), the
scan's winner (the unit at 6 s) has distance 9, was examined, the unit
at 4 s's computed distance is its true distance, and the winner beats
the unit at 4 s. -/
theorem C6_locator_nearest_selection_witness :
    scanLoop 0 51 5 [⟨1, true, 7, 44, 44⟩] none = scanLoop 0 51 4 [] none
  ∧ scanLoop 0 51 3 [⟨0, true, 7, 60, 60⟩, ⟨0, true, 8, 62, 62⟩] none =
      scanLoop 0 51 3 [⟨0, true, 7, 60, 60⟩] none
  ∧ 9 = distTo 51 exampleUnit60
  ∧ exampleUnit60 ∈ consideredUnits 0 51 max_packets exampleUnits
  ∧ distTo 51 exampleUnit40 = |effective_pts exampleUnit40 - 51|
  ∧ BetterEq 51 exampleUnit60 9 exampleUnit40 :=
  have h3 := C6_locator_nearest_selection.2.2.1 0 51 max_packets exampleUnits
    exampleUnit60 9 (by decide) (by decide)
  ⟨C6_locator_nearest_selection.1 0 51 4 [] none ⟨1, true, 7, 44, 44⟩ (by decide),
   C6_locator_nearest_selection.2.1 0 51 2 [⟨0, true, 8, 62, 62⟩] none
     ⟨0, true, 7, 60, 60⟩ (by decide) (by decide),
   h3.1, h3.2.1, h3.2.2.1 exampleUnit40 (by decide),
   h3.2.2.2 exampleUnit40 (by decide)⟩

/-- C7: Locator bound and not-found outcome.  The scan loop inspects at
most `max_packets = 2000` access units: its result on any stream equals
its result on the first 2000 units of that stream (and the recursion is
structurally bounded by that fuel, so it terminates).  When no key access
unit with a valid timestamp is examined within the bound (or before
end-of-stream), the locator reports the distinct code `-6`, which is
negative and different from the seek-failure code `-3`; when a keyframe
is found the reported code is its size, which is strictly positive. -/
theorem C7_locator_bound_not_found :
    (∀ (vid target : Int) (fuel : Nat) (pkts : List ThumbPacket)
        (best : Option (ThumbPacket × Int)),
      scanLoop vid target fuel (pkts.take fuel) best =
        scanLoop vid target fuel pkts best)
  ∧ (∀ (vid target : Int) (pkts : List ThumbPacket),
      movi_thumbnail_scan vid target pkts =
        movi_thumbnail_scan vid target (pkts.take max_packets))
  ∧ (∀ (vid target : Int) (pkts : List ThumbPacket),
      consideredUnits vid target max_packets pkts = [] →
      read_keyframe_code true vid target pkts = -6)
  ∧ (∀ (vid target : Int) (pkts : List ThumbPacket) (b : ThumbPacket) (d : Int),
      movi_thumbnail_scan vid target pkts = some (b, d) →
      0 < b.size ∧ read_keyframe_code true vid target pkts = b.size)
  ∧ (∀ (vid target : Int) (pkts : List ThumbPacket),
      read_keyframe_code false vid target pkts = -3)
  ∧ (-6 : Int) < 0 ∧ (-6 : Int) ≠ -3 := by
  refine ⟨?_, ?_, ?_, ?_, ?_, by decide, by decide⟩
  · exact fun vid target => scanLoop_take vid target
  · intro vid target pkts
    exact (scanLoop_take vid target max_packets pkts none).symm
  · intro vid target pkts h
    have hnone := (scanLoop_basic vid target max_packets pkts none
      (fun b0 d0 h => Option.noConfusion h)).2.1 rfl h
    simp only [read_keyframe_code, movi_thumbnail_scan, if_true] at hnone ⊢
    rw [hnone]
    rfl
  · intro vid target pkts b d hr
    have hmem := ((scanLoop_basic vid target max_packets pkts none
      (fun b0 d0 h => Option.noConfusion h)).2.2 b d
        (by simpa [movi_thumbnail_scan] using hr)).2
    have hcand := considered_isCandidate vid target max_packets pkts b
      (hmem.resolve_left (fun hcontra => Option.noConfusion hcontra))
    refine ⟨candidate_size_pos hcand, ?_⟩
    simp only [read_keyframe_code, if_true]
    rw [hr]
    rfl
  · intro vid target pkts
    rfl

/-- Witness for C7: a stream whose first units are a non-key packet, a
packet of another stream, and an empty key packet yields the not-found
code `-6`; the example scan reports the winner's positive size. -/
theorem C7_locator_bound_not_found_witness :
    read_keyframe_code true 0 100
      [⟨0, false, 9, 5, 5⟩, ⟨1, true, 9, 5, 5⟩, ⟨0, true, 0, 5, 5⟩] = -6
  ∧ 0 < exampleUnit60.size
  ∧ read_keyframe_code true 0 51 exampleUnits = exampleUnit60.size :=
  have h4 := C7_locator_bound_not_found.2.2.2.1 0 51 exampleUnits
    exampleUnit60 9 (by decide)
  ⟨C7_locator_bound_not_found.2.2.1 0 100
     [⟨0, false, 9, 5, 5⟩, ⟨1, true, 9, 5, 5⟩, ⟨0, true, 0, 5, 5⟩] (by decide),
   h4.1, h4.2⟩


end Movi
